import Mathlib

/-!
Verification of the Vleer music plugin (src/plugins/music.ts) against its
natural-language specification.

The plugin is embedded shallowly: the Tauri filesystem (`exists`, `readFile`,
`writeFile`, `remove`, all relative to `BaseDirectory.Audio`) and the SQL
store (`UPDATE playlists SET cover = ? WHERE id = ?`) are modelled as an
explicit `World` record threaded through every operation; asynchronous
failure of `writeFile` and `db.execute` is modelled by Boolean oracles, and
`readFile` fails exactly when the path does not exist.  JavaScript numbers
in the volume curve are modelled by real numbers.
-/

set_option autoImplicit false

namespace Vleer

/-- Association-list access: the content stored at path `p`, if present.
Models `readFile`/`exists` over the audio base directory. -/
def fileGet : List (String × String) → String → Option String
  | [], _ => none
  | f :: fs, p => if f.1 = p then some f.2 else fileGet fs p

/-- The observable external state: the files under the audio base directory
(path ↦ content) and the `playlists.cover` column of the SQL store
(playlist id ↦ persisted cover path). -/
structure World where
  files : List (String × String)
  db : List (String × String)
  deriving DecidableEq, Repr

/-- `writeFile p d`: creates or overwrites the file at `p`. -/
def setFile (w : World) (p d : String) : World :=
  { w with files := (p, d) :: w.files.filter (fun f => !(f.1 == p)) }

/-- `remove p`: deletes the file at `p` if present. -/
def removeFile (w : World) (p : String) : World :=
  { w with files := w.files.filter (fun f => !(f.1 == p)) }

/-- `db.execute("UPDATE playlists SET cover = ? WHERE id = ?", [path, pid])`. -/
def dbSetCover (w : World) (pid path : String) : World :=
  { w with db := (pid, path) :: w.db.filter (fun f => !(f.1 == pid)) }

/-- Persisted cover path of a playlist, as stored in the DB. -/
def dbCover (w : World) (pid : String) : Option String :=
  fileGet w.db pid

/-- The path template `Vleer/Covers/<id>.<ext>` used throughout music.ts. -/
def coverName (pid ext : String) : String :=
  "Vleer/Covers/" ++ pid ++ "." ++ ext

/-- The extension list `['png', 'jpg', 'jpeg', 'gif']` hard-coded in
`updatePlaylistCover`, `getCoverURLFromID` and `searchCoverByPlaylistId`. -/
def knownExts : List String := ["png", "jpg", "jpeg", "gif"]

/-- JavaScript `path.split('.').pop()`: the characters after the last dot,
or the whole string when there is no dot. -/
def extOf (path : String) : String :=
  String.mk ((path.data.reverse.takeWhile (fun c => ¬ (c = '.'))).reverse)

/-- The dynamic (untyped) second argument of `updatePlaylistCover`,
classified by the guard
`!coverPath || typeof coverPath !== 'object' || typeof coverPath.path !== 'string'`. -/
inductive CoverArg where
  /-- A falsy value: `null`, `undefined`, `0`, `""`, `false`, `NaN`. -/
  | falsy
  /-- A truthy non-object (string, number, ...): `typeof` is not `'object'`. -/
  | nonObject
  /-- An object whose `path` property is not a string. -/
  | objNoPathString
  /-- A well-formed `{ path: string }` descriptor. -/
  | objWithPath (path : String)
  deriving DecidableEq, Repr

/-- The guard of `updatePlaylistCover` succeeds exactly on `{ path: string }`
descriptors. -/
def wellFormedCover : CoverArg → Bool
  | .objWithPath _ => true
  | _ => false

/-- Errors surfaced by the plugin: `TypeError` from the descriptor guard,
and the generic `Error` thrown from the catch-block on filesystem/DB
failure. -/
inductive MusicErr where
  | validation
  | io
  deriving DecidableEq, Repr

/-- Result of `updatePlaylistCover`: the world after the call together with
the error it threw, if any. -/
structure UpdateResult where
  world : World
  error : Option MusicErr
  deriving DecidableEq, Repr

/-- The delete loop of `updatePlaylistCover`: for each known extension,
`exists` then `remove` of `Vleer/Covers/<pid>.<ext>`. -/
def deleteCovers (pid : String) (w : World) : World :=
  { w with files :=
      w.files.filter (fun f => !(knownExts.any (fun e => f.1 == coverName pid e))) }

/-- `updatePlaylistCover(playlistId, coverPath)` from music.ts.

Control flow of the source, in order: (1) the descriptor guard throws a
`TypeError` before any I/O; (2) the delete loop removes every existing
`Vleer/Covers/<pid>.<ext>` for the four known extensions — outside the
try-block, so it is never rolled back; (3) inside the try-block,
`readFile(coverPath.path)` (fails iff the path is absent), then
`writeFile(newCoverPath, data)` (failure modelled by the `writeOk` oracle),
then the DB update (failure modelled by the `dbOk` oracle); any failure in
the try-block surfaces as the generic `Error`. -/
def updatePlaylistCover (writeOk dbOk : Bool) (w : World) (pid : String)
    (arg : CoverArg) : UpdateResult :=
  match arg with
  | .objWithPath path =>
    let extension := extOf path
    let newCoverPath := coverName pid extension
    let w1 := deleteCovers pid w
    match fileGet w1.files path with
    | none => ⟨w1, some .io⟩
    | some data =>
      if writeOk then
        let w2 := setFile w1 newCoverPath data
        if dbOk then ⟨dbSetCover w2 pid newCoverPath, none⟩
        else ⟨w2, some .io⟩
      else ⟨w1, some .io⟩
  | _ => ⟨w, some .validation⟩

/-! ### Sequences of cover updates (for the at-most-one-cover invariant) -/

/-- One call of `updatePlaylistCover` with a well-formed descriptor:
its failure oracles and the descriptor's `path` field. -/
structure UpdateCall where
  writeOk : Bool
  dbOk : Bool
  srcPath : String
  deriving DecidableEq, Repr

/-- `l.starts p`: boolean prefix test on character lists. -/
def charsStart : List Char → List Char → Bool
  | [], _ => true
  | _ :: _, [] => false
  | a :: as, b :: bs => a == b && charsStart as bs

/-- `matchesGlob pid p`: `p` matches the glob `Vleer/Covers/<pid>.*`,
i.e. it starts with `Vleer/Covers/<pid>.`. -/
def matchesGlob (pid p : String) : Bool :=
  charsStart ("Vleer/Covers/" ++ pid ++ ".").data p.data

/-- The cover files on disk for a playlist id: files whose name matches
`Vleer/Covers/<pid>.*`. -/
def coverFiles (pid : String) (w : World) : List (String × String) :=
  w.files.filter (fun f => matchesGlob pid f.1)

/-- Number of cover files on disk matching `<pid>.*`. -/
def countCovers (pid : String) (w : World) : Nat :=
  (coverFiles pid w).length

/-- Run a sequence of `updatePlaylistCover` calls for one playlist id;
returns the final world when every call completes (throws no error),
`none` as soon as one call fails. -/
def runCompleted (pid : String) : World → List UpdateCall → Option World
  | w, [] => some w
  | w, c :: cs =>
    let r := updatePlaylistCover c.writeOk c.dbOk w pid (.objWithPath c.srcPath)
    match r.error with
    | some _ => none
    | none => runCompleted pid r.world cs

/-! ### Cover resolution (`getCoverURLFromID`, `searchCoverByPlaylistId`,
`getCoverFromID`) -/

/-- Observable result of a cover lookup: an object URL built from the bytes
of a cover file, or the literal placeholder string `"/cover.png"`. -/
inductive CoverResult where
  | url (data : String)
  | placeholder
  deriving DecidableEq, Repr

/-- The `for (let ext of extensions)` loop of `getCoverURLFromID`:
`exists` then `readFile` on `Vleer/Covers/<pid>.<ext>`, returning the
object URL of the first hit; `"/cover.png"` when the loop falls through. -/
def getCoverURLLoop (w : World) (pid : String) : List String → CoverResult
  | [] => .placeholder
  | e :: es =>
    match fileGet w.files (coverName pid e) with
    | some d => .url d
    | none => getCoverURLLoop w pid es

/-- `getCoverURLFromID(playlistId)` from music.ts. -/
def getCoverURLFromID (w : World) (pid : String) : CoverResult :=
  getCoverURLLoop w pid ["png", "jpg", "jpeg", "gif"]

/-- The identical `for (let ext of extensions)` loop of
`searchCoverByPlaylistId` (the source duplicates the body verbatim). -/
def searchCoverLoop (w : World) (pid : String) : List String → CoverResult
  | [] => .placeholder
  | e :: es =>
    match fileGet w.files (coverName pid e) with
    | some d => .url d
    | none => searchCoverLoop w pid es

/-- `searchCoverByPlaylistId(playlistId)` from music.ts. -/
def searchCoverByPlaylistId (w : World) (pid : String) : CoverResult :=
  searchCoverLoop w pid ["png", "jpg", "jpeg", "gif"]

/-- `getCoverFromID(songId)` from music.ts: a single unguarded
`readFile("Vleer/Covers/" + songId + ".png")`; a missing file rejects the
promise and the error propagates to the caller. -/
def getCoverFromID (w : World) (songId : String) : Except MusicErr CoverResult :=
  match fileGet w.files ("Vleer/Covers/" ++ songId ++ ".png") with
  | some d => .ok (.url d)
  | none => .error .io

/-! ### Volume curve (`setVolume`) -/

open Real in
/-- `setVolume(volume)` from music.ts, as the gain assigned to
`audio.volume`, over real numbers: `volume == 0` short-circuits to `0`;
otherwise the level is clamped to `[1, 100]` and mapped by
`exp(minv + scale * (volume - minp))` with `minv = ln 0.001`,
`maxv = ln 1`, `minp = 0`, `maxp = 100`, `scale = (maxv - minv) / (maxp - minp)`. -/
noncomputable def setVolume (volume : ℝ) : ℝ :=
  if volume = 0 then 0
  else
    let v := max 1 (min 100 volume)
    let minp : ℝ := 0
    let maxp : ℝ := 100
    let minv := Real.log 0.001
    let maxv := Real.log 1
    let scale := (maxv - minv) / (maxp - minp)
    Real.exp (minv + scale * (v - minp))

/-! ### Audio graph (`ensureAudioContextAndFilters`) -/

/-- Web-audio nodes appearing in the plugin's graph. -/
inductive Node where
  | source
  | analyser
  | destination
  | eqFilter (i : Nat)
  deriving DecidableEq, Repr

/-- Observable state of an `AudioContext`. -/
inductive CtxSt where
  | suspended
  | running
  deriving DecidableEq, Repr

/-- The kind of value passed to `musicStore.applyEqSettings`: either the
persisted per-band gain settings (as `settingsStore.getEq()` returns, the
argument the `applyEqSettings` wrapper in music.ts passes), or an array of
live filter handles (the argument `ensureAudioContextAndFilters` passes). -/
inductive EqApplyArg where
  | settings (gains : List Int)
  | filters (handles : List Nat)
  deriving DecidableEq, Repr

/-- Modelled from the spec: EqSettings have a fixed cardinality of bands
("e.g. 10 bands at standard center frequencies"); the store's
`createEqFilters` (not under src/) returns one filter handle per band. -/
def eqBandCount : Nat := 10

/-- The filter handles `musicStore.createEqFilters()` returns, one per band. -/
def eqFilterHandles : List Nat := List.range eqBandCount

/-- Modelled from the spec: `musicStore.connectEqFilters` (not under src/)
connects "source → each filter in band order → analyser"; web-audio
`connect` only adds edges, it never removes one. -/
def chainEdges : List (Node × Node) :=
  (Node.source, Node.eqFilter 0) ::
    (List.range eqBandCount).map
      (fun i => (Node.eqFilter i,
        if i + 1 < eqBandCount then Node.eqFilter (i + 1) else Node.analyser))

/-- The audio graph held in `musicStore.player` once constructed:
context state, the accumulated `connect` edges, the analyser's `fftSize`,
the filter handles, and the log of arguments passed to
`musicStore.applyEqSettings`. -/
structure AudioGraph where
  ctxState : CtxSt
  connections : List (Node × Node)
  fftSize : Nat
  filters : List Nat
  appliedArgs : List EqApplyArg
  deriving DecidableEq, Repr

/-- The part of `musicStore.player` that `ensureAudioContextAndFilters`
touches: the lazily-constructed graph, plus a count of how many times the
construction branch ran (for the at-most-once property). -/
structure Player where
  graph : Option AudioGraph
  constructions : Nat
  deriving DecidableEq, Repr

/-- The fresh player at plugin load: `audioContext` is unset. -/
def initialPlayer : Player := ⟨none, 0⟩

/-- `audioContext.resume()`. -/
def resumeCtx (g : AudioGraph) : AudioGraph := { g with ctxState := .running }

/-- `ensureAudioContextAndFilters()` from music.ts.  `initSt` is the state
the freshly constructed `AudioContext` starts in (platform-dependent:
autoplay policy may start it suspended).

Construction branch, in source order: create context/source/analyser,
`sourceNode.connect(analyser)`, `analyser.connect(destination)`,
`fftSize = 256`, `createEqFilters`, `connectEqFilters`,
`applyEqSettings(musicStore.player.eqFilters)`, then resume if suspended.
Else-branch: resume if suspended, otherwise nothing. -/
def ensureAudioContextAndFilters (initSt : CtxSt) (p : Player) : Player :=
  match p.graph with
  | none =>
    let g : AudioGraph :=
      { ctxState := initSt
        connections := [(.source, .analyser), (.analyser, .destination)] ++ chainEdges
        fftSize := 256
        filters := eqFilterHandles
        appliedArgs := [.filters eqFilterHandles] }
    let g := match g.ctxState with
      | .suspended => resumeCtx g
      | .running => g
    { graph := some g, constructions := p.constructions + 1 }
  | some g =>
    match g.ctxState with
    | .suspended => { p with graph := some (resumeCtx g) }
    | .running => p

/-! ### Queue and playback controller (the `ended` listener)

The queue and transport live in `musicStore` (stores/music.ts), which is
not under src/; they are modelled from the spec (§4.2 Queue, §4.5
PlaybackController).  music.ts registers
`audio.addEventListener('ended', () => { music.skip(); })`, delegating to
the store's controller-level skip. -/

/-- Modelled from the spec: the Queue — "ordered sequence of song ids (the
active play order) + integer cursor into it". -/
structure QueueState where
  items : List String
  cursor : Nat
  deriving DecidableEq, Repr

/-- Modelled from the spec: `Queue.skip()` — "advances cursor by 1; if
cursor would exceed the last index, wraps to 0 (circular). If queue is
empty, no-op." -/
def queueSkip (q : QueueState) : QueueState :=
  if q.items.isEmpty then q
  else if q.cursor + 1 ≥ q.items.length then { q with cursor := 0 }
  else { q with cursor := q.cursor + 1 }

/-- Modelled from the spec: `Queue.current()` — "returns the id at cursor,
or null if empty". -/
def queueCurrent (q : QueueState) : Option String :=
  q.items[q.cursor]?

/-- Transport states of the playback controller. -/
inductive PlaybackPhase where
  | idle
  | playing
  | paused
  deriving DecidableEq, Repr

/-- The controller state the `ended` handler touches. -/
structure Controller where
  queue : QueueState
  currentSongId : Option String
  phase : PlaybackPhase
  deriving DecidableEq, Repr

/-- Modelled from the spec: `setSong(id)` — "sets `currentSongId`, moves to
`Paused` (loaded but not yet sounding) regardless of prior state". -/
def ctrlSetSong (c : Controller) (id : String) : Controller :=
  { c with currentSongId := some id, phase := .paused }

/-- Modelled from the spec: `play()` — "starts audio rendering, transitions
to `Playing`". -/
def ctrlPlay (c : Controller) : Controller :=
  { c with phase := .playing }

/-- The controller with no current song, in the initial `Idle` transport
state. -/
def ctrlToIdle (c : Controller) : Controller :=
  { c with currentSongId := none, phase := .idle }

/-- Modelled from the spec: the controller-level skip that the `ended`
listener invokes (`musicStore.skip`, not under src/) — "synchronously calls
`Queue.skip()` then `setSong(Queue.current())` then `play()` ... If the
queue is empty after skip, transitions to `Idle`." -/
def handleEnded (c : Controller) : Controller :=
  let c1 := { c with queue := queueSkip c.queue }
  match queueCurrent c1.queue with
  | some id => ctrlPlay (ctrlSetSong c1 id)
  | none => ctrlToIdle c1

/-! ## Helper lemmas -/

theorem fileGet_filter_none (l : List (String × String)) (p : String × String → Bool)
    (k : String) (h : ∀ d, p (k, d) = false) : fileGet (l.filter p) k = none := by
  induction l with
  | nil => rfl
  | cons f fs ih =>
    by_cases hp : p f = true
    · rw [List.filter_cons_of_pos hp]
      unfold fileGet
      split
      · rename_i hk
        exact absurd hp (by rw [show f = (k, f.2) from Prod.ext hk rfl, h f.2]; simp)
      · exact ih
    · rw [List.filter_cons_of_neg hp]
      exact ih

theorem fileGet_filter_of_none (l : List (String × String)) (p : String × String → Bool)
    (k : String) (h : fileGet l k = none) : fileGet (l.filter p) k = none := by
  induction l with
  | nil => rfl
  | cons f fs ih =>
    unfold fileGet at h
    by_cases hk : f.1 = k
    · rw [if_pos hk] at h; exact absurd h (by simp)
    · rw [if_neg hk] at h
      by_cases hp : p f = true
      · rw [List.filter_cons_of_pos hp]
        unfold fileGet
        rw [if_neg hk]
        exact ih h
      · rw [List.filter_cons_of_neg hp]
        exact ih h

theorem charsStart_append (l m : List Char) : charsStart l (l ++ m) = true := by
  induction l with
  | nil => rfl
  | cons a as ih => simp [charsStart, ih]

theorem coverName_data (pid e : String) :
    (coverName pid e).data = ("Vleer/Covers/" ++ pid ++ ".").data ++ e.data := by
  simp [coverName, String.data_append, List.append_assoc]

theorem matchesGlob_coverName (pid e : String) :
    matchesGlob pid (coverName pid e) = true := by
  rw [matchesGlob, coverName_data]
  exact charsStart_append _ _

/-! ## Claims -/

/-- C9: for every input that is not a well-formed `{ path: string }`
descriptor, `updatePlaylistCover` throws the `TypeError` synchronously,
before any filesystem delete/write or database update: the resulting world
is the input world, unchanged, whatever the failure oracles and the prior
state. -/
theorem updatePlaylistCover_rejects_malformed (writeOk dbOk : Bool) (w : World)
    (pid : String) (arg : CoverArg) (h : wellFormedCover arg = false) :
    updatePlaylistCover writeOk dbOk w pid arg = ⟨w, some .validation⟩ := by
  cases arg <;> simp_all [wellFormedCover, updatePlaylistCover]

theorem updatePlaylistCover_rejects_malformed_witness :
    wellFormedCover .falsy = false ∧
      updatePlaylistCover true true ⟨[("a.png", "d")], []⟩ "pl" .falsy =
        ⟨⟨[("a.png", "d")], []⟩, some .validation⟩ :=
  ⟨rfl, updatePlaylistCover_rejects_malformed true true ⟨[("a.png", "d")], []⟩ "pl" .falsy rfl⟩

/-- C10: `getCoverFromID` reads only the single path
`Vleer/Covers/<songId>.png`: when that file is absent the read error
propagates (never the `"/cover.png"` placeholder), and the result depends
only on that one path, whatever other cover files exist. -/
theorem getCoverFromID_png_only (w w2 : World) (songId : String) :
    (fileGet w.files ("Vleer/Covers/" ++ songId ++ ".png") = none →
      getCoverFromID w songId = .error .io) ∧
    getCoverFromID w songId ≠ .ok .placeholder ∧
    (fileGet w.files ("Vleer/Covers/" ++ songId ++ ".png") =
        fileGet w2.files ("Vleer/Covers/" ++ songId ++ ".png") →
      getCoverFromID w songId = getCoverFromID w2 songId) := by
  refine ⟨fun h => by simp [getCoverFromID, h], ?_, fun h => ?_⟩
  · unfold getCoverFromID
    split <;> simp
  · unfold getCoverFromID
    rw [h]

theorem getCoverFromID_png_only_witness :
    fileGet (⟨[("Vleer/Covers/s1.jpg", "d")], []⟩ : World).files
        ("Vleer/Covers/" ++ "s1" ++ ".png") = none ∧
      getCoverFromID ⟨[("Vleer/Covers/s1.jpg", "d")], []⟩ "s1" = .error .io :=
  ⟨by decide,
    (getCoverFromID_png_only ⟨[("Vleer/Covers/s1.jpg", "d")], []⟩ ⟨[], []⟩ "s1").1 (by decide)⟩

theorem searchCoverLoop_eq_getCoverURLLoop (w : World) (pid : String) (l : List String) :
    searchCoverLoop w pid l = getCoverURLLoop w pid l := by
  induction l with
  | nil => rfl
  | cons e es ih =>
    unfold searchCoverLoop getCoverURLLoop
    split <;> simp_all

/-- C3: cover resolution probes `png, jpg, jpeg, gif` in that exact order
against `Vleer/Covers/<id>.<ext>` and returns the content of the first
extension that exists; when none exists it returns the `"/cover.png"`
placeholder; the result depends only on those four paths (so repeated calls
on the same disk state agree), and `searchCoverByPlaylistId` computes the
same function as `getCoverURLFromID`. -/
theorem coverResolution_probe_order (w w2 : World) (pid : String) :
    searchCoverByPlaylistId w pid = getCoverURLFromID w pid ∧
    (∀ d, fileGet w.files (coverName pid "png") = some d →
      getCoverURLFromID w pid = .url d) ∧
    (∀ d, fileGet w.files (coverName pid "png") = none →
      fileGet w.files (coverName pid "jpg") = some d →
      getCoverURLFromID w pid = .url d) ∧
    (∀ d, fileGet w.files (coverName pid "png") = none →
      fileGet w.files (coverName pid "jpg") = none →
      fileGet w.files (coverName pid "jpeg") = some d →
      getCoverURLFromID w pid = .url d) ∧
    (∀ d, fileGet w.files (coverName pid "png") = none →
      fileGet w.files (coverName pid "jpg") = none →
      fileGet w.files (coverName pid "jpeg") = none →
      fileGet w.files (coverName pid "gif") = some d →
      getCoverURLFromID w pid = .url d) ∧
    ((∀ e ∈ knownExts, fileGet w.files (coverName pid e) = none) →
      getCoverURLFromID w pid = .placeholder) ∧
    ((∀ e ∈ knownExts, fileGet w.files (coverName pid e) =
        fileGet w2.files (coverName pid e)) →
      getCoverURLFromID w pid = getCoverURLFromID w2 pid) := by
  refine ⟨searchCoverLoop_eq_getCoverURLLoop w pid _, ?_, ?_, ?_, ?_, ?_, ?_⟩
  · intro d h1
    simp [getCoverURLFromID, getCoverURLLoop, h1]
  · intro d h1 h2
    simp [getCoverURLFromID, getCoverURLLoop, h1, h2]
  · intro d h1 h2 h3
    simp [getCoverURLFromID, getCoverURLLoop, h1, h2, h3]
  · intro d h1 h2 h3 h4
    simp [getCoverURLFromID, getCoverURLLoop, h1, h2, h3, h4]
  · intro h
    have h1 := h "png" (by simp [knownExts])
    have h2 := h "jpg" (by simp [knownExts])
    have h3 := h "jpeg" (by simp [knownExts])
    have h4 := h "gif" (by simp [knownExts])
    simp [getCoverURLFromID, getCoverURLLoop, h1, h2, h3, h4]
  · intro h
    have h1 := h "png" (by simp [knownExts])
    have h2 := h "jpg" (by simp [knownExts])
    have h3 := h "jpeg" (by simp [knownExts])
    have h4 := h "gif" (by simp [knownExts])
    simp only [getCoverURLFromID, getCoverURLLoop, h1, h2, h3, h4]

theorem coverResolution_probe_order_witness :
    fileGet (⟨[("Vleer/Covers/p.jpg", "JPG"), ("Vleer/Covers/p.png", "PNG")], []⟩ : World).files
        (coverName "p" "png") = some "PNG" ∧
      getCoverURLFromID ⟨[("Vleer/Covers/p.jpg", "JPG"), ("Vleer/Covers/p.png", "PNG")], []⟩ "p" =
        .url "PNG" :=
  ⟨by decide,
    (coverResolution_probe_order
        ⟨[("Vleer/Covers/p.jpg", "JPG"), ("Vleer/Covers/p.png", "PNG")], []⟩
        ⟨[], []⟩ "p").2.1 "PNG" (by decide)⟩

/-! ## Volume curve -/

theorem setVolume_formula (v : ℝ) (h : v ≠ 0) :
    setVolume v = Real.exp (Real.log 0.001 +
      ((Real.log 1 - Real.log 0.001) / 100) * max 1 (min 100 v)) := by
  simp [setVolume, h]

theorem setVolume_nonneg (v : ℝ) : 0 ≤ setVolume v := by
  by_cases h : v = 0
  · simp [setVolume, h]
  · rw [setVolume_formula v h]
    exact (Real.exp_pos _).le

theorem setVolume_hundred : setVolume 100 = 1 := by
  rw [setVolume_formula 100 (by norm_num), Real.log_one]
  norm_num

theorem setVolume_fifty : setVolume 50 =
    Real.exp (Real.log 0.001 + ((Real.log 1 - Real.log 0.001) / 100) * 50) := by
  rw [setVolume_formula 50 (by norm_num)]
  norm_num

theorem setVolume_fifty_half : setVolume 50 = Real.exp (Real.log 0.001 / 2) := by
  rw [setVolume_fifty, Real.log_one]
  congr 1
  ring

theorem setVolume_fifty_ne : setVolume 50 ≠ 0.5 := by
  rw [setVolume_fifty_half]
  intro hc
  have hsq : Real.exp (Real.log 0.001 / 2) * Real.exp (Real.log 0.001 / 2) =
      (0.5 : ℝ) * 0.5 := by rw [hc]
  rw [← Real.exp_add] at hsq
  have harg : Real.log 0.001 / 2 + Real.log 0.001 / 2 = Real.log 0.001 := by ring
  rw [harg, Real.exp_log (by norm_num : (0:ℝ) < 0.001)] at hsq
  norm_num at hsq

/-- C4: for every volume level (reals, so in particular every integer):
level `0` yields gain exactly `0`; any other level is clamped to
`[1, 100]` and yields `exp(ln 0.001 + ((ln 1 - ln 0.001) / 100) * clamped)`;
level `100` yields exactly `1`; level `50` yields the exponential value,
not `0.5`. -/
theorem setVolume_curve_spec (v : ℝ) :
    (v = 0 → setVolume v = 0) ∧
    (v ≠ 0 → setVolume v = Real.exp (Real.log 0.001 +
      ((Real.log 1 - Real.log 0.001) / 100) * max 1 (min 100 v))) ∧
    setVolume 100 = 1 ∧
    setVolume 50 =
      Real.exp (Real.log 0.001 + ((Real.log 1 - Real.log 0.001) / 100) * 50) ∧
    setVolume 50 ≠ 0.5 :=
  ⟨fun h => by simp [setVolume, h], fun h => setVolume_formula v h,
    setVolume_hundred, setVolume_fifty, setVolume_fifty_ne⟩

theorem setVolume_curve_spec_witness :
    setVolume 0 = 0 ∧
      setVolume 7 = Real.exp (Real.log 0.001 +
        ((Real.log 1 - Real.log 0.001) / 100) * max 1 (min 100 (7 : ℝ))) :=
  ⟨(setVolume_curve_spec 0).1 rfl, (setVolume_curve_spec 7).2.1 (by norm_num)⟩

/-- C5: the volume curve is monotonically non-decreasing over `[0, 100]`,
including the jump from the level-0 silence special case to level 1. -/
theorem setVolume_monotone (a b : ℝ) (h0 : 0 ≤ a) (hab : a ≤ b) (hb : b ≤ 100) :
    setVolume a ≤ setVolume b := by
  by_cases ha : a = 0
  · rw [ha]
    have hz : setVolume 0 = 0 := by simp [setVolume]
    rw [hz]
    exact setVolume_nonneg b
  · have hbne : b ≠ 0 := by
      have hlt : 0 < a := lt_of_le_of_ne h0 (Ne.symm ha)
      intro hb0
      rw [hb0] at hab
      linarith
    rw [setVolume_formula a ha, setVolume_formula b hbne]
    apply Real.exp_le_exp.mpr
    apply add_le_add_left
    apply mul_le_mul_of_nonneg_left
    · exact max_le_max le_rfl (min_le_min le_rfl hab)
    · rw [Real.log_one]
      have hneg : Real.log 0.001 < 0 := Real.log_neg (by norm_num) (by norm_num)
      exact div_nonneg (by linarith) (by norm_num)

theorem setVolume_monotone_witness : setVolume 0 ≤ setVolume 100 :=
  setVolume_monotone 0 100 (by norm_num) (by norm_num) (by norm_num)

/-! ## Ended-event handler -/

theorem queueCurrent_skip_some (q : QueueState) (h : q.items ≠ []) :
    ∃ id, queueCurrent (queueSkip q) = some id := by
  have hlen : 0 < q.items.length := List.length_pos.mpr h
  unfold queueSkip queueCurrent
  rw [if_neg (by simp [List.isEmpty_iff, h])]
  by_cases hc : q.cursor + 1 ≥ q.items.length
  · rw [if_pos hc]
    exact ⟨q.items[0], by simp [List.getElem?_eq_getElem hlen]⟩
  · rw [if_neg hc]
    have hlt : q.cursor + 1 < q.items.length := by omega
    exact ⟨q.items[q.cursor + 1], by simp [List.getElem?_eq_getElem hlt]⟩

/-- C8: on every `ended` event the handler runs the controller-level skip:
`Queue.skip()` then `setSong(Queue.current())` then `play()`, so playback
advances to the next queued song without caller involvement; if the queue
is empty after the skip, the controller is left `Idle` with no current
song. -/
theorem endedHandler_advances (c : Controller) :
    (c.queue.items = [] →
      handleEnded c = ctrlToIdle { c with queue := queueSkip c.queue } ∧
      (handleEnded c).phase = .idle ∧ (handleEnded c).currentSongId = none) ∧
    (c.queue.items ≠ [] →
      ∃ id, queueCurrent (queueSkip c.queue) = some id ∧
        handleEnded c = ctrlPlay (ctrlSetSong { c with queue := queueSkip c.queue } id) ∧
        (handleEnded c).phase = .playing ∧
        (handleEnded c).currentSongId = some id) := by
  constructor
  · intro h
    have hskip : queueSkip c.queue = c.queue := by
      unfold queueSkip
      rw [if_pos (by simp [List.isEmpty_iff, h])]
    have hcur : queueCurrent (queueSkip c.queue) = none := by
      rw [hskip]
      unfold queueCurrent
      simp [h]
    simp only [handleEnded]
    rw [hcur]
    simp [ctrlToIdle]
  · intro h
    obtain ⟨id, hid⟩ := queueCurrent_skip_some c.queue h
    refine ⟨id, hid, ?_⟩
    simp only [handleEnded]
    rw [hid]
    simp [ctrlPlay, ctrlSetSong]

theorem endedHandler_advances_witness :
    (handleEnded ⟨⟨["a", "b"], 0⟩, some "a", .playing⟩).phase = .playing ∧
    (handleEnded ⟨⟨["a", "b"], 0⟩, some "a", .playing⟩).currentSongId = some "b" := by
  obtain ⟨id, hid, heq, hphase, hcur⟩ :=
    (endedHandler_advances ⟨⟨["a", "b"], 0⟩, some "a", .playing⟩).2 (by simp)
  have hb2 : queueCurrent (queueSkip
      (⟨⟨["a", "b"], 0⟩, some "a", PlaybackPhase.playing⟩ : Controller).queue) = some "b" := by
    decide
  rw [hb2] at hid
  injection hid with hb3
  subst hb3
  exact ⟨hphase, hcur⟩

/-! ## Audio graph lazy construction -/

/-- Invariant tying graph existence to the construction count: a fresh
player has built nothing; once the graph exists, exactly one construction
has run. -/
def PlayerInv (p : Player) : Prop :=
  (p.graph = none ∧ p.constructions = 0) ∨ (p.graph.isSome ∧ p.constructions = 1)

theorem ensure_preserves_inv (i : CtxSt) (p : Player) (h : PlayerInv p) :
    PlayerInv (ensureAudioContextAndFilters i p) := by
  rcases h with ⟨hg, hc⟩ | ⟨hg, hc⟩
  · right
    cases i <;> simp [ensureAudioContextAndFilters, hg, hc]
  · right
    obtain ⟨g, hg2⟩ := Option.isSome_iff_exists.mp hg
    cases hst : g.ctxState <;> simp [ensureAudioContextAndFilters, hg2, hst, hc]

theorem foldl_ensure_inv (inits : List CtxSt) (p : Player) (h : PlayerInv p) :
    PlayerInv (inits.foldl (fun p i => ensureAudioContextAndFilters i p) p) := by
  induction inits generalizing p with
  | nil => exact h
  | cons i is ih => exact ih _ (ensure_preserves_inv i p h)

/-- C6: `ensureAudioContextAndFilters` is idempotent: starting from the
fresh player, any sequence of calls runs the construction branch at most
once; and when a graph already exists, a call is the identity if the
context is running, and only flips a suspended context to running —
leaving connections, filters, `fftSize` and the applied-settings log
untouched. -/
theorem ensureAudioContextAndFilters_idempotent :
    (∀ inits : List CtxSt,
      (inits.foldl (fun p i => ensureAudioContextAndFilters i p) initialPlayer).constructions ≤ 1) ∧
    (∀ (i : CtxSt) (p : Player) (g : AudioGraph), p.graph = some g →
      (g.ctxState = .running → ensureAudioContextAndFilters i p = p) ∧
      (g.ctxState = .suspended →
        ensureAudioContextAndFilters i p =
          { p with graph := some { g with ctxState := .running } })) := by
  constructor
  · intro inits
    have h := foldl_ensure_inv inits initialPlayer (Or.inl ⟨rfl, rfl⟩)
    rcases h with ⟨-, hc⟩ | ⟨-, hc⟩ <;> omega
  · intro i p g h
    constructor <;> intro hst <;> simp [ensureAudioContextAndFilters, h, hst, resumeCtx]

theorem ensureAudioContextAndFilters_idempotent_witness :
    ([CtxSt.running, CtxSt.running].foldl (fun p i => ensureAudioContextAndFilters i p)
        initialPlayer).constructions ≤ 1 ∧
    ensureAudioContextAndFilters CtxSt.running ⟨some ⟨.running, [], 256, [], []⟩, 1⟩ =
      ⟨some ⟨.running, [], 256, [], []⟩, 1⟩ :=
  ⟨ensureAudioContextAndFilters_idempotent.1 [CtxSt.running, CtxSt.running],
    (ensureAudioContextAndFilters_idempotent.2 CtxSt.running
      ⟨some ⟨.running, [], 256, [], []⟩, 1⟩ ⟨.running, [], 256, [], []⟩ rfl).1 rfl⟩

/-- C7 (divergence evidence): on the first invocation the constructed graph
contains the direct edge `sourceNode → analyser` (`sourceNode.connect(analyser)`
runs before the filters even exist, and `connect` never removes edges), so
the wiring is not the claimed exclusive chain source → filters → analyser →
output; and the argument passed to `musicStore.applyEqSettings` is the
filter-handle array `musicStore.player.eqFilters`, which is not the stored
per-band gain settings for any gain values. -/
theorem ensureAudioContextAndFilters_first_call (i : CtxSt) :
    ∃ g, (ensureAudioContextAndFilters i initialPlayer).graph = some g ∧
      (Node.source, Node.analyser) ∈ g.connections ∧
      g.appliedArgs = [EqApplyArg.filters eqFilterHandles] ∧
      ∀ gains : List Int, EqApplyArg.filters eqFilterHandles ≠ EqApplyArg.settings gains := by
  cases i <;>
    exact ⟨_, rfl, by decide, rfl, fun gains h => EqApplyArg.noConfusion h⟩

/-! ## Cover update: failure behaviour -/

theorem updatePlaylistCover_objWithPath (writeOk dbOk : Bool) (w : World) (pid path : String) :
    updatePlaylistCover writeOk dbOk w pid (.objWithPath path) =
      match fileGet (deleteCovers pid w).files path with
      | none => ⟨deleteCovers pid w, some .io⟩
      | some data =>
        if writeOk then
          if dbOk then
            ⟨dbSetCover (setFile (deleteCovers pid w) (coverName pid (extOf path)) data) pid
              (coverName pid (extOf path)), none⟩
          else ⟨setFile (deleteCovers pid w) (coverName pid (extOf path)) data, some .io⟩
        else ⟨deleteCovers pid w, some .io⟩ := rfl

theorem fileGet_deleteCovers (pid : String) (w : World) (e : String) (he : e ∈ knownExts) :
    fileGet (deleteCovers pid w).files (coverName pid e) = none := by
  apply fileGet_filter_none
  intro d
  simp only [Bool.not_eq_false']
  exact List.any_eq_true.mpr ⟨e, he, by simp⟩

/-- C1 counterexample: with an old cover `Vleer/Covers/pl.png` on disk and
its path persisted, an update whose source path `new.jpg` cannot be read
throws the IOError, yet the resulting state is neither "all prior cover
files and the persisted cover path left intact" (the old cover file is
gone) nor "new cover written and persisted" (no `Vleer/Covers/pl.jpg`
exists): the delete phase ran outside the try-block and is not rolled
back. -/
theorem updatePlaylistCover_not_atomic_cex :
    (updatePlaylistCover true true
        ⟨[("Vleer/Covers/pl.png", "old")], [("pl", "Vleer/Covers/pl.png")]⟩
        "pl" (.objWithPath "new.jpg")).error = some .io ∧
    ¬ ((updatePlaylistCover true true
          ⟨[("Vleer/Covers/pl.png", "old")], [("pl", "Vleer/Covers/pl.png")]⟩
          "pl" (.objWithPath "new.jpg")).world.files = [("Vleer/Covers/pl.png", "old")] ∨
        (fileGet (updatePlaylistCover true true
            ⟨[("Vleer/Covers/pl.png", "old")], [("pl", "Vleer/Covers/pl.png")]⟩
            "pl" (.objWithPath "new.jpg")).world.files
          (coverName "pl" "jpg")).isSome = true) := by
  decide

/-- C1 (amended): if `updatePlaylistCover` fails with an IOError during the
read/write/persist phase, the persisted cover path in the playlist record
is unchanged (the DB write is the commit point and comes last), but the
filesystem is partially updated rather than intact: every prior cover file
for the id with a known extension — other than the new cover's own path —
has already been removed, the delete phase not being rolled back. -/
theorem updatePlaylistCover_io_failure_effects (writeOk dbOk : Bool) (w : World)
    (pid path : String)
    (herr : (updatePlaylistCover writeOk dbOk w pid (.objWithPath path)).error = some .io) :
    dbCover (updatePlaylistCover writeOk dbOk w pid (.objWithPath path)).world pid =
      dbCover w pid ∧
    ∀ e ∈ knownExts, ¬ (coverName pid e = coverName pid (extOf path)) →
      fileGet (updatePlaylistCover writeOk dbOk w pid (.objWithPath path)).world.files
        (coverName pid e) = none := by
  rw [updatePlaylistCover_objWithPath] at herr ⊢
  rcases hread : fileGet (deleteCovers pid w).files path with _ | data <;>
    simp only [hread] at herr ⊢
  · exact ⟨rfl, fun e he _ => fileGet_deleteCovers pid w e he⟩
  · cases writeOk
    · exact ⟨rfl, fun e he _ => fileGet_deleteCovers pid w e he⟩
    · cases dbOk
      · refine ⟨rfl, fun e he hne => ?_⟩
        show fileGet
          (setFile (deleteCovers pid w) (coverName pid (extOf path)) data).files
          (coverName pid e) = none
        unfold setFile fileGet
        rw [if_neg (fun hc => hne hc.symm)]
        exact fileGet_filter_of_none _ _ _ (fileGet_deleteCovers pid w e he)
      · exact absurd herr (by simp)

theorem updatePlaylistCover_io_failure_effects_witness :
    dbCover (updatePlaylistCover true true
        ⟨[("Vleer/Covers/pl.png", "old")], [("pl", "Vleer/Covers/pl.png")]⟩
        "pl" (.objWithPath "new.jpg")).world "pl" =
      dbCover ⟨[("Vleer/Covers/pl.png", "old")], [("pl", "Vleer/Covers/pl.png")]⟩ "pl" ∧
    fileGet (updatePlaylistCover true true
        ⟨[("Vleer/Covers/pl.png", "old")], [("pl", "Vleer/Covers/pl.png")]⟩
        "pl" (.objWithPath "new.jpg")).world.files (coverName "pl" "png") = none :=
  ⟨(updatePlaylistCover_io_failure_effects true true
      ⟨[("Vleer/Covers/pl.png", "old")], [("pl", "Vleer/Covers/pl.png")]⟩
      "pl" "new.jpg" (by decide)).1,
    (updatePlaylistCover_io_failure_effects true true
      ⟨[("Vleer/Covers/pl.png", "old")], [("pl", "Vleer/Covers/pl.png")]⟩
      "pl" "new.jpg" (by decide)).2 "png" (by decide) (by decide)⟩

/-! ## Cover update sequences: the at-most-one-cover invariant -/

/-- All cover files for `pid` on disk use a known extension. -/
def InvKnown (pid : String) (w : World) : Prop :=
  ∀ f ∈ w.files, matchesGlob pid f.1 = true → ∃ e ∈ knownExts, f.1 = coverName pid e

theorem coverFiles_deleteCovers (pid : String) (w : World) (hInv : InvKnown pid w) :
    coverFiles pid (deleteCovers pid w) = [] := by
  rw [coverFiles]
  apply List.filter_eq_nil_iff.mpr
  intro f hf hglob
  rw [deleteCovers] at hf
  obtain ⟨hmem, hdel⟩ := List.mem_filter.mp hf
  obtain ⟨e, he, heq⟩ := hInv f hmem (by simpa using hglob)
  rw [Bool.not_eq_true'] at hdel
  have hany : (knownExts.any fun e2 => f.1 == coverName pid e2) = true :=
    List.any_eq_true.mpr ⟨e, he, by simp [heq]⟩
  rw [hdel] at hany
  exact Bool.false_ne_true hany

theorem coverFiles_filter_nil (pid : String) (l : List (String × String))
    (q : String × String → Bool)
    (h : l.filter (fun f => matchesGlob pid f.1) = []) :
    (l.filter q).filter (fun f => matchesGlob pid f.1) = [] := by
  apply List.filter_eq_nil_iff.mpr
  intro f hf
  exact List.filter_eq_nil_iff.mp h f (List.mem_filter.mp hf).1

theorem updateCover_completes_covers (writeOk dbOk : Bool) (w : World) (pid path : String)
    (hInv : InvKnown pid w) (hext : extOf path ∈ knownExts)
    (hdone : (updatePlaylistCover writeOk dbOk w pid (.objWithPath path)).error = none) :
    countCovers pid (updatePlaylistCover writeOk dbOk w pid (.objWithPath path)).world = 1 ∧
    InvKnown pid (updatePlaylistCover writeOk dbOk w pid (.objWithPath path)).world := by
  rw [updatePlaylistCover_objWithPath] at hdone ⊢
  rcases hread : fileGet (deleteCovers pid w).files path with _ | data <;>
    simp only [hread] at hdone ⊢
  · exact absurd hdone (by simp)
  · cases writeOk
    · exact absurd hdone (by simp)
    · cases dbOk
      · exact absurd hdone (by simp)
      · have hdel : coverFiles pid (deleteCovers pid w) = [] :=
          coverFiles_deleteCovers pid w hInv
        constructor
        · show countCovers pid
            (dbSetCover (setFile (deleteCovers pid w) (coverName pid (extOf path)) data) pid
              (coverName pid (extOf path))) = 1
          rw [countCovers, coverFiles]
          show (List.filter (fun f => matchesGlob pid f.1)
            ((coverName pid (extOf path), data) ::
              (deleteCovers pid w).files.filter
                (fun f => !(f.1 == coverName pid (extOf path))))).length = 1
          rw [List.filter_cons_of_pos (by simpa using matchesGlob_coverName pid (extOf path))]
          rw [coverFiles_filter_nil pid (deleteCovers pid w).files _ hdel]
          rfl
        · intro f hf hglob
          rcases List.mem_cons.mp hf with hf1 | hf2
          · exact ⟨extOf path, hext, by rw [hf1]⟩
          · exfalso
            have hmem : f ∈ (deleteCovers pid w).files := (List.mem_filter.mp hf2).1
            have hin : f ∈ coverFiles pid (deleteCovers pid w) :=
              List.mem_filter.mpr ⟨hmem, by simpa using hglob⟩
            rw [hdel] at hin
            exact List.not_mem_nil f hin

theorem runCompleted_cons (pid : String) (w : World) (c : UpdateCall) (cs : List UpdateCall) :
    runCompleted pid w (c :: cs) =
      match (updatePlaylistCover c.writeOk c.dbOk w pid (.objWithPath c.srcPath)).error with
      | some _ => none
      | none =>
        runCompleted pid
          (updatePlaylistCover c.writeOk c.dbOk w pid (.objWithPath c.srcPath)).world cs := rfl

/-- C2 counterexample: starting from a disk holding the source images
`a.webp` and `b.png` and no cover for playlist `pl`, the completed update
sequence (cover from `a.webp`, then cover from `b.png`) ends with **2**
cover files matching `pl.*` — the first update writes `Vleer/Covers/pl.webp`,
whose extension the delete loop of the second update never probes. -/
theorem updateSequence_two_covers_cex :
    Option.map (countCovers "pl")
      (runCompleted "pl" ⟨[("a.webp", "d1"), ("b.png", "d2")], []⟩
        [⟨true, true, "a.webp"⟩, ⟨true, true, "b.png"⟩]) = some 2 := by
  decide

/-- C2 (amended): after any finite non-empty sequence of completed
`updatePlaylistCover` calls for a playlist id, the number of cover files
matching `<id>.*` is 0 or 1 — provided every update's derived extension is
one of the known extensions `png, jpg, jpeg, gif` and the initial cover
files for the id (if any) all use known extensions.  Without that
restriction the invariant fails (see the counterexample). -/
theorem updateSequence_at_most_one_cover (pid : String) (cs : List UpdateCall) :
    cs ≠ [] → (∀ c ∈ cs, extOf c.srcPath ∈ knownExts) →
    ∀ w wfin : World, InvKnown pid w → runCompleted pid w cs = some wfin →
      countCovers pid wfin ≤ 1 := by
  induction cs with
  | nil => intro hne; exact absurd rfl hne
  | cons c cs ih =>
    intro _ hexts w wfin hInv hrun
    rw [runCompleted_cons] at hrun
    rcases herr : (updatePlaylistCover c.writeOk c.dbOk w pid (.objWithPath c.srcPath)).error
      with _ | err <;> simp only [herr] at hrun
    · obtain ⟨hcount, hinv2⟩ :=
        updateCover_completes_covers c.writeOk c.dbOk w pid c.srcPath hInv
          (hexts c (by simp)) herr
      cases cs with
      | nil =>
        simp only [runCompleted] at hrun
        injection hrun with hw
        rw [← hw]
        omega
      | cons c2 cs2 =>
        exact ih (by simp) (fun c2 hc2 => hexts c2 (List.mem_cons_of_mem _ hc2))
          _ wfin hinv2 hrun
    · exact absurd hrun (by simp)

theorem updateSequence_at_most_one_cover_witness :
    ([⟨true, true, "c.png"⟩] : List UpdateCall) ≠ [] ∧
    InvKnown "pl" ⟨[("c.png", "d")], []⟩ ∧
    runCompleted "pl" ⟨[("c.png", "d")], []⟩ [⟨true, true, "c.png"⟩] =
      some ⟨[("Vleer/Covers/pl.png", "d"), ("c.png", "d")], [("pl", "Vleer/Covers/pl.png")]⟩ ∧
    countCovers "pl"
      ⟨[("Vleer/Covers/pl.png", "d"), ("c.png", "d")], [("pl", "Vleer/Covers/pl.png")]⟩ ≤ 1 :=
  ⟨by simp, by unfold InvKnown; decide, by decide,
    updateSequence_at_most_one_cover "pl" [⟨true, true, "c.png"⟩] (by simp) (by decide)
      ⟨[("c.png", "d")], []⟩ _ (by unfold InvKnown; decide) (by decide)⟩

end Vleer
